import Mathlib

/-
Verification of the safe diagnostic-query builder (package `diagnostics`).

The subsystem turns a caller's request for AKS control-plane logs (a log
category, an optional severity filter, a record-count bound, a cluster
resource identifier and a schema mode) into a single, validated analytics
query string, or an error. The repository ships the subsystem's test file;
the builder itself is modelled here from the design document, with all
concrete literals (table names, clause text, error messages, bounds) pinned
by the expectations of the test file.

Strings are embedded as lists of characters (`Str`), so that every
definition is executable and every concrete property decidable.
-/

set_option maxRecDepth 4000000
set_option maxHeartbeats 4000000

namespace Diagnostics

/-- Strings of the embedded program, represented as lists of characters. -/
abbrev Str := List Char

/-- The single-quote character used to quote literals inside KQL queries. -/
def quoteCh : Char := Char.ofNat 39

/-- The newline character. -/
def newlineCh : Char := Char.ofNat 10

/-- Lower-case folding of one ASCII character (code points 65-90 shift to
97-122), as `strings.ToLower` does on ASCII input. -/
def lcChar (c : Char) : Char :=
  if 65 ≤ c.toNat ∧ c.toNat ≤ 90 then Char.ofNat (c.toNat + 32) else c

/-- Upper-case folding of one ASCII character (code points 97-122 shift to
65-90), as `strings.ToUpper` does on ASCII input. -/
def ucChar (c : Char) : Char :=
  if 97 ≤ c.toNat ∧ c.toNat ≤ 122 then Char.ofNat (c.toNat - 32) else c

/-- Lower-case folding of a string. -/
def strToLower (s : Str) : Str := s.map lcChar

/-- Upper-case folding of a string. -/
def strToUpper (s : Str) : Str := s.map ucChar

/-- Decimal rendering of a natural number. -/
def natToStr (n : Nat) : Str := Nat.toDigits 10 n

/-- Decimal rendering of an integer, as Go's `fmt` renders an `int`. -/
def intToStr (n : Int) : Str :=
  if n < 0 then '-' :: natToStr (-n).toNat else natToStr n.toNat

/-- Modelled from the spec: `TableMode` of the diagnostics package (absent
from the sources; its tests build values such as `TableMode(999)`). A Go
integer-typed enumeration with exactly two defined values. -/
abbrev TableMode := Int

/-- The legacy shared-schema mode (`AzureDiagnostics` table). -/
def AzureDiagnosticsMode : TableMode := 0

/-- The curated per-resource schema mode. -/
def ResourceSpecificMode : TableMode := 1

/-- Modelled from the spec: the per-category routing table of the
diagnostics package (absent from the sources; named
`resourceSpecificTableMapping` by its tests). Control-plane family
categories share the curated `AKSControlPlane` table; the two audit
categories each own a dedicated table. -/
def resourceSpecificTableMapping : List (Str × Str) :=
  [ (("kube-apiserver").data, ("AKSControlPlane").data),
    (("kube-audit").data, ("AKSAudit").data),
    (("kube-audit-admin").data, ("AKSAuditAdmin").data),
    (("kube-controller-manager").data, ("AKSControlPlane").data),
    (("kube-scheduler").data, ("AKSControlPlane").data),
    (("cluster-autoscaler").data, ("AKSControlPlane").data),
    (("cloud-controller-manager").data, ("AKSControlPlane").data),
    (("guard").data, ("AKSControlPlane").data),
    (("csi-azuredisk-controller").data, ("AKSControlPlane").data),
    (("csi-azurefile-controller").data, ("AKSControlPlane").data),
    (("csi-snapshot-controller").data, ("AKSControlPlane").data) ]

/-- The admissible severity levels: empty (no filter), info, warning,
error. -/
def validLogLevels : List Str :=
  [ ([] : Str), ("info").data, ("warning").data, ("error").data ]

/-- The two audit-family categories, whose records carry no severity
field. -/
def isAuditCategory (category : Str) : Bool :=
  category == ("kube-audit").data || category == ("kube-audit-admin").data

/-- Characters admissible inside one segment of a cluster resource
identifier. -/
def segChar (c : Char) : Bool :=
  c.isAlphanum || c == '-' || c == '_' || c == '.' || c == '(' || c == ')'

/-- A non-empty identifier segment of admissible characters. -/
def segOk (s : Str) : Bool := !s.isEmpty && s.all segChar

/-- Splits a string at every slash, like `strings.Split(s, "/")`. -/
def splitOnSlash : Str → List Str
  | [] => [[]]
  | c :: rest =>
    if c = '/' then [] :: splitOnSlash rest
    else
      match splitOnSlash rest with
      | [] => [[c]]
      | s :: ss => (c :: s) :: ss

/-- Modelled from the spec: the structural pattern of a managed-cluster
resource identifier (subscription / resource group / provider / resource
type / resource name), matched case-insensitively. -/
def isValidClusterResourceID (s : Str) : Bool :=
  match splitOnSlash (strToLower s) with
  | [a, b, subId, c, rg, d, e, f, name] =>
    a.isEmpty && b == ("subscriptions").data && segOk subId
      && c == ("resourcegroups").data && segOk rg
      && d == ("providers").data && e == ("microsoft.containerservice").data
      && f == ("managedclusters").data && segOk name
  | _ => false

/-- The backend-defined upper bound on `maxRecords`. -/
def maxAllowedRecords : Int := 1000

/-- Modelled from the spec: `ValidateKQLQueryParams` of the diagnostics
package (absent from the sources; only its tests exist). Each field is
checked independently, in the order the design lists the rules; the first
violated rule yields an error naming the field, and no field is defaulted
or coerced. Error texts are pinned by the test expectations. -/
def ValidateKQLQueryParams (category logLevel : Str) (maxRecords : Int)
    (clusterResourceID : Str) (tableMode : TableMode) : Option Str :=
  if category.isEmpty then some (("category cannot be empty").data)
  else if !(validLogLevels.contains logLevel) then
    some ((("invalid log level: ").data) ++ logLevel)
  else if maxRecords < 1 then some (("maxRecords must be at least 1").data)
  else if maxRecords > maxAllowedRecords then
    some (("maxRecords cannot exceed 1000").data)
  else if clusterResourceID.isEmpty then
    some (("clusterResourceID cannot be empty").data)
  else if !(isValidClusterResourceID clusterResourceID) then
    some (("invalid clusterResourceID format").data)
  else if !(tableMode == AzureDiagnosticsMode
      || tableMode == ResourceSpecificMode) then
    some ((("invalid tableMode: ").data) ++ intToStr tableMode)
  else none

/-- The generic table name. -/
def genericTableName : Str := ("AzureDiagnostics").data

/-- The column projection of generic-mode queries. -/
def genericProjection : Str := ("project TimeGenerated, Level, log_s").data

/-- The column projection of curated control-plane queries. -/
def controlPlaneProjection : Str :=
  ("project TimeGenerated, Category, Level, Message, PodName").data

/-- The column projection of the dedicated audit tables. -/
def auditProjection : Str :=
  ("project TimeGenerated, Level, AuditId, Stage, RequestUri, Verb, User").data

/-- The one-letter message prefix a severity level maps to in the generic
schema. Only consulted for the three non-empty levels. -/
def genericLevelPrefix (logLevel : Str) : Str :=
  if logLevel == ("info").data then ['I']
  else if logLevel == ("warning").data then ['W']
  else ['E']

/-- Modelled from the spec: assembly of a generic-mode query (absent from
the sources), in the fixed clause order: table, resource filter with the
identifier upper-cased, category filter, optional severity prefix filter
(suppressed for audit categories), descending time order, limit,
projection. -/
def buildGenericQuery (category logLevel : Str) (maxRecords : Int)
    (clusterResourceID : Str) : Str :=
  genericTableName
  ++ (" | where ResourceId == ").data ++ [quoteCh]
  ++ strToUpper clusterResourceID ++ [quoteCh]
  ++ (" | where Category == ").data ++ [quoteCh] ++ category ++ [quoteCh]
  ++ (if !logLevel.isEmpty && !isAuditCategory category then
        (" | where log_s startswith ").data ++ [quoteCh]
          ++ genericLevelPrefix logLevel ++ [quoteCh]
      else [])
  ++ (" | order by TimeGenerated desc").data
  ++ (" | limit ").data ++ intToStr maxRecords
  ++ (" | ").data ++ genericProjection

/-- Modelled from the spec: assembly of a resource-specific query (absent
from the sources), in the fixed clause order: routed table, resource filter
with the identifier lower-cased, mandatory category filter on the shared
control-plane table (none on the dedicated audit tables), optional
structured severity filter (control-plane table only), descending time
order, limit, projection taken from the routing decision. -/
def buildResourceSpecificQuery (tableName category logLevel : Str)
    (maxRecords : Int) (clusterResourceID : Str) : Str :=
  tableName
  ++ (" | where _ResourceId == ").data ++ [quoteCh]
  ++ strToLower clusterResourceID ++ [quoteCh]
  ++ (if tableName == ("AKSControlPlane").data then
        (" | where Category == ").data ++ [quoteCh] ++ category ++ [quoteCh]
      else [])
  ++ (if !logLevel.isEmpty && tableName == ("AKSControlPlane").data then
        (" | where Level == ").data ++ [quoteCh]
          ++ strToUpper logLevel ++ [quoteCh]
      else [])
  ++ (" | order by TimeGenerated desc").data
  ++ (" | limit ").data ++ intToStr maxRecords
  ++ (" | ").data
  ++ (if tableName == ("AKSControlPlane").data then controlPlaneProjection
      else auditProjection)

/-- Modelled from the spec: the query-builder value of the diagnostics
package (absent from the sources; its tests construct it through
`NewKQLQueryBuilder` and corrupt its `tableMode` field). -/
structure KQLQueryBuilder where
  category : Str
  logLevel : Str
  maxRecords : Int
  clusterResourceID : Str
  tableMode : TableMode

/-- Modelled from the spec: the `Build` method (absent from the sources).
Routes on the table mode; an unmapped category in resource-specific mode
and an unknown table mode are errors, and every error carries an empty
query string. Error texts are pinned by the test expectations. -/
def KQLQueryBuilder.Build (b : KQLQueryBuilder) : Str × Option Str :=
  if b.tableMode == AzureDiagnosticsMode then
    (buildGenericQuery b.category b.logLevel b.maxRecords b.clusterResourceID,
      none)
  else if b.tableMode == ResourceSpecificMode then
    match List.lookup b.category resourceSpecificTableMapping with
    | some tableName =>
      (buildResourceSpecificQuery tableName b.category b.logLevel
        b.maxRecords b.clusterResourceID, none)
    | none =>
      ([], some ((("category ").data) ++ [quoteCh] ++ b.category ++ [quoteCh]
        ++ ((" is not supported in resource-specific mode").data)))
  else ([], some ((("unexpected table mode: ").data) ++ intToStr b.tableMode))

/-- Modelled from the spec: the validating constructor (absent from the
sources). Returns no builder together with a wrapping error when any
parameter is invalid. -/
def NewKQLQueryBuilder (category logLevel : Str) (maxRecords : Int)
    (clusterResourceID : Str) (tableMode : TableMode) :
    Option KQLQueryBuilder × Option Str :=
  match ValidateKQLQueryParams category logLevel maxRecords
      clusterResourceID tableMode with
  | some e => (none, some ((("invalid KQL query parameters: ").data) ++ e))
  | none =>
    (some ⟨category, logLevel, maxRecords, clusterResourceID, tableMode⟩,
      none)

/-- The table mode selected by the boolean flag of `BuildSafeKQLQuery`. -/
def modeOf (isResourceSpecific : Bool) : TableMode :=
  if isResourceSpecific then ResourceSpecificMode else AzureDiagnosticsMode

/-- Modelled from the spec: `BuildSafeKQLQuery` of the diagnostics package
(absent from the sources; only its tests exist). Validates every parameter,
then routes and assembles; on any error the query string is empty. The
boolean selects the resource-specific table mode. -/
def BuildSafeKQLQuery (category logLevel : Str) (maxRecords : Int)
    (clusterResourceID : Str) (isResourceSpecific : Bool) : Str × Option Str :=
  match ValidateKQLQueryParams category logLevel maxRecords
      clusterResourceID (modeOf isResourceSpecific) with
  | some e => ([], some e)
  | none =>
    KQLQueryBuilder.Build
      ⟨category, logLevel, maxRecords, clusterResourceID,
        modeOf isResourceSpecific⟩

/-- The nine categories the Table Router maps to the shared curated
`AKSControlPlane` table in ResourceSpecific mode. -/
def controlPlaneCategories : List Str :=
  [ ("kube-apiserver").data,
    ("kube-controller-manager").data,
    ("kube-scheduler").data,
    ("cluster-autoscaler").data,
    ("cloud-controller-manager").data,
    ("guard").data,
    ("csi-azuredisk-controller").data,
    ("csi-azurefile-controller").data,
    ("csi-snapshot-controller").data ]

/-- The two audit-family categories, each owning a dedicated table. -/
def auditCategories : List Str :=
  [ ("kube-audit").data, ("kube-audit-admin").data ]

/-- The cluster resource identifier the subsystem's tests use. -/
def testResourceID : Str :=
  ("/subscriptions/test/resourcegroups/rg/providers/microsoft.containerservice/managedclusters/cluster").data

/-- The category-equality filter clause for a category, as it appears in a
built query. -/
def categoryFilterClause (category : Str) : Str :=
  ("where Category == ").data ++ [quoteCh] ++ category ++ [quoteCh]

/-- Whether the needle occurs as a contiguous substring of the haystack;
an executable counterpart of the sublist-occurrence relation. -/
def isSubstr (needle : Str) : Str → Bool
  | [] => needle.isEmpty
  | c :: rest => needle.isPrefixOf (c :: rest) || isSubstr needle rest

/-- The case-sensitivity test identifiers of the subsystem's test file. -/
def caseSensitivityTestIDs : List Str :=
  [ ("/subscriptions/TEST/resourcegroups/RG/providers/Microsoft.ContainerService/managedClusters/CLUSTER").data,
    ("/subscriptions/test/resourcegroups/rg/providers/microsoft.containerservice/managedclusters/cluster").data,
    ("/Subscriptions/Test/ResourceGroups/Rg/Providers/Microsoft.ContainerService/ManagedClusters/Cluster").data ]

/-- The remainder of the haystack after the first occurrence of the needle,
if any. -/
def findDrop (needle : Str) : Str → Option Str
  | [] => if needle.isEmpty then some [] else none
  | c :: rest =>
    if needle.isPrefixOf (c :: rest) then
      some ((c :: rest).drop needle.length)
    else findDrop needle rest

/-- Checks that the given clause fragments occur in the haystack in order,
each search resuming after the end of the previous match — the sequential
scan the structure test performs. -/
def clausesInOrder : List Str → Str → Bool
  | [], _ => true
  | nd :: nds, hay =>
    match findDrop nd hay with
    | some rest => clausesInOrder nds rest
    | none => false

/-- One element of a timestamp pattern: a digit or a fixed character. -/
inductive TimePat where
  | digit : TimePat
  | lit : Char → TimePat

/-- Whether a character matches a pattern element. -/
def patOk : TimePat → Char → Bool
  | TimePat.digit, c => c.isDigit
  | TimePat.lit d, c => c == d

/-- Matches a pattern against the front of a string, returning the
remainder on success. -/
def matchPat : List TimePat → Str → Option Str
  | [], s => some s
  | _ :: _, [] => none
  | p :: ps, c :: s => if patOk p c then matchPat ps s else none

/-- The date-time skeleton of an RFC3339 timestamp up to the seconds
field. -/
def dateTimePat : List TimePat :=
  [TimePat.digit, TimePat.digit, TimePat.digit, TimePat.digit,
   TimePat.lit '-', TimePat.digit, TimePat.digit, TimePat.lit '-',
   TimePat.digit, TimePat.digit, TimePat.lit 'T', TimePat.digit,
   TimePat.digit, TimePat.lit ':', TimePat.digit, TimePat.digit,
   TimePat.lit ':', TimePat.digit, TimePat.digit]

/-- The numeric timezone offset pattern (hh:mm). -/
def offsetPat : List TimePat :=
  [TimePat.digit, TimePat.digit, TimePat.lit ':', TimePat.digit,
   TimePat.digit]

/-- A timezone suffix: Z, or a sign followed by an hh:mm offset. -/
def validTZ : Str → Bool
  | [] => false
  | c :: r =>
    (c == 'Z' && r.isEmpty) ||
    ((c == '+' || c == '-') && matchPat offsetPat r == some [])

/-- After the first fractional digit: further digits, then a timezone. -/
def validFracTail : Str → Bool
  | [] => false
  | c :: r => if c.isDigit then validFracTail r else validTZ (c :: r)

/-- A fractional-seconds part: at least one digit, then a timezone. -/
def validFrac : Str → Bool
  | [] => false
  | c :: r => c.isDigit && validFracTail r

/-- What may follow the seconds field: an optional fraction introduced by a
dot, then a timezone suffix. -/
def validTimeSuffix : Str → Bool
  | [] => false
  | c :: r => if c == '.' then validFrac r else validTZ (c :: r)

/-- Modelled from the spec: well-formedness of a timestamp in the standard
RFC3339 text format the timespan calculator accepts. -/
def isValidRFC3339 (s : Str) : Bool :=
  match matchPat dateTimePat s with
  | some rest => validTimeSuffix rest
  | none => false

/-- Modelled from the spec: `CalculateTimespan` of the diagnostics package
(absent from the sources; only its tests exist). Parses the required start
and the optional end timestamp and returns the interval literal
`start/end`; the end defaults to the current wall-clock reading, which the
model receives explicitly as `nowStr` to stay pure. Each parse failure
yields an error naming the field. -/
def CalculateTimespan (startTime endTime nowStr : Str) : Str × Option Str :=
  if !isValidRFC3339 startTime then
    ([], some ((("invalid start time format: ").data) ++ startTime))
  else if endTime.isEmpty then (startTime ++ '/' :: nowStr, none)
  else if !isValidRFC3339 endTime then
    ([], some ((("invalid end time format: ").data) ++ endTime))
  else (startTime ++ '/' :: endTime, none)

/-- Whether one pattern element can never match a slash. -/
def noSlashPat : TimePat → Bool
  | TimePat.digit => true
  | TimePat.lit d => !(d == '/')

/-- Pattern elements that can never match a slash. -/
def noSlashPats (ps : List TimePat) : Bool := ps.all noSlashPat

/-- The executable substring check agrees with the sublist-occurrence
relation. -/
theorem isSubstr_iff {nd hay : Str} : isSubstr nd hay = true ↔ nd <:+: hay := by
  induction hay with
  | nil => simp [isSubstr, List.infix_nil, List.isEmpty_iff]
  | cons c rest ih =>
    simp [isSubstr, List.infix_cons_iff, ih, Bool.or_eq_true]

/-- Converts the negation of a negated boolean hypothesis. -/
theorem bool_of_not_not {b : Bool} (h : ¬(!b) = true) : b = true := by
  cases b
  · exact absurd (by simp) h
  · rfl

/-- A decomposition of the haystack exhibits a substring occurrence. -/
theorem occurs_of_eq_append (a b : Str) {m q : Str} (hq : q = a ++ m ++ b) :
    m <:+: q := ⟨a, b, hq.symm⟩

/-- A decomposition of the haystack exhibits a suffix. -/
theorem suffix_of_eq_append (a : Str) {m q : Str} (hq : q = a ++ m) :
    m <:+ q := ⟨a, hq.symm⟩

/-- The validator accepts exactly when every field satisfies its rule. -/
theorem validate_none_iff (c ll : Str) (n : Int) (cid : Str)
    (m : TableMode) :
    ValidateKQLQueryParams c ll n cid m = none ↔
      (c ≠ [] ∧ ll ∈ validLogLevels ∧ 1 ≤ n ∧ n ≤ maxAllowedRecords ∧
       cid ≠ [] ∧ isValidClusterResourceID cid = true ∧
       (m = AzureDiagnosticsMode ∨ m = ResourceSpecificMode)) := by
  unfold ValidateKQLQueryParams
  constructor
  · intro h
    split_ifs at h with h1 h2 h3 h4 h5 h6 h7
    all_goals try simp at h
    have g2 : ll ∈ validLogLevels :=
      List.elem_iff.mp (by simpa [List.contains] using bool_of_not_not h2)
    have g6 : isValidClusterResourceID cid = true := bool_of_not_not h6
    have g7 : (m == AzureDiagnosticsMode || m == ResourceSpecificMode)
        = true := bool_of_not_not h7
    refine ⟨by simpa [List.isEmpty_iff] using h1, g2, by omega, by omega,
      by simpa [List.isEmpty_iff] using h5, g6, by simpa using g7⟩
  · rintro ⟨h1, h2, h3, h4, h5, h6, h7⟩
    have g2 : validLogLevels.contains ll = true := by
      simpa [List.contains] using List.elem_iff.mpr h2
    split_ifs with k1 k2 k3 k4 k5 k6 k7
    · exact absurd (List.isEmpty_iff.mp k1) h1
    · exact absurd k2 (by simpa using h2)
    · omega
    · omega
    · exact absurd (List.isEmpty_iff.mp k5) h5
    · simp [h6] at k6
    · rcases h7 with h7 | h7 <;> subst h7 <;> exact absurd k7 (by decide)
    · rfl

/-- A successful validation makes the generic-mode entry point assemble the
generic query. -/
theorem buildSafe_generic_eq {c ll : Str} {n : Int} {cid : Str}
    (h : ValidateKQLQueryParams c ll n cid AzureDiagnosticsMode = none) :
    BuildSafeKQLQuery c ll n cid false =
      (buildGenericQuery c ll n cid, none) := by
  unfold BuildSafeKQLQuery
  rw [show modeOf false = AzureDiagnosticsMode from rfl, h]
  rfl

/-- A successful validation and a mapped category make the
resource-specific entry point assemble the routed query. -/
theorem buildSafe_rs_eq {c ll : Str} {n : Int} {cid : Str} {t : Str}
    (h : ValidateKQLQueryParams c ll n cid ResourceSpecificMode = none)
    (hlk : List.lookup c resourceSpecificTableMapping = some t) :
    BuildSafeKQLQuery c ll n cid true =
      (buildResourceSpecificQuery t c ll n cid, none) := by
  unfold BuildSafeKQLQuery
  rw [show modeOf true = ResourceSpecificMode from rfl, h]
  have hstep : KQLQueryBuilder.Build
      ⟨c, ll, n, cid, ResourceSpecificMode⟩ =
      match List.lookup c resourceSpecificTableMapping with
      | some tableName =>
        (buildResourceSpecificQuery tableName c ll n cid, none)
      | none =>
        ([], some ((("category ").data) ++ [quoteCh] ++ c ++ [quoteCh]
          ++ ((" is not supported in resource-specific mode").data))) := rfl
  rw [hstep, hlk]

/-- A successful validation but an unmapped category make the
resource-specific entry point fail. -/
theorem buildSafe_rs_unmapped {c ll : Str} {n : Int} {cid : Str}
    (h : ValidateKQLQueryParams c ll n cid ResourceSpecificMode = none)
    (hlk : List.lookup c resourceSpecificTableMapping = none) :
    BuildSafeKQLQuery c ll n cid true =
      ([], some ((("category ").data) ++ [quoteCh] ++ c ++ [quoteCh]
        ++ ((" is not supported in resource-specific mode").data))) := by
  unfold BuildSafeKQLQuery
  rw [show modeOf true = ResourceSpecificMode from rfl, h]
  have hstep : KQLQueryBuilder.Build
      ⟨c, ll, n, cid, ResourceSpecificMode⟩ =
      match List.lookup c resourceSpecificTableMapping with
      | some tableName =>
        (buildResourceSpecificQuery tableName c ll n cid, none)
      | none =>
        ([], some ((("category ").data) ++ [quoteCh] ++ c ++ [quoteCh]
          ++ ((" is not supported in resource-specific mode").data))) := rfl
  rw [hstep, hlk]

/-- C6: whenever BuildSafeKQLQuery or the builder's Build method returns an
error, the accompanying query string is exactly empty, never a partially
assembled query. -/
theorem build_error_returns_empty_query :
    (∀ b : KQLQueryBuilder, (KQLQueryBuilder.Build b).snd ≠ none →
       (KQLQueryBuilder.Build b).fst = []) ∧
    (∀ (category logLevel : Str) (maxRecords : Int) (cid : Str)
       (isResourceSpecific : Bool),
       (BuildSafeKQLQuery category logLevel maxRecords cid
         isResourceSpecific).snd ≠ none →
       (BuildSafeKQLQuery category logLevel maxRecords cid
         isResourceSpecific).fst = []) := by
  have hb : ∀ b : KQLQueryBuilder, (KQLQueryBuilder.Build b).snd ≠ none →
      (KQLQueryBuilder.Build b).fst = [] := by
    intro b h
    unfold KQLQueryBuilder.Build at h ⊢
    split_ifs at h ⊢
    · simp at h
    · cases hlk : List.lookup b.category resourceSpecificTableMapping with
      | some t => rw [hlk] at h; simp at h
      | none => rfl
    · rfl
  refine ⟨hb, ?_⟩
  intro c ll n cid rs h
  unfold BuildSafeKQLQuery at h ⊢
  cases hv : ValidateKQLQueryParams c ll n cid (modeOf rs) with
  | some e => rfl
  | none => rw [hv] at h; exact hb _ h

/-- Witness for C6: an out-of-range record count yields an error and the
empty string. -/
theorem build_error_returns_empty_query_witness :
    (BuildSafeKQLQuery (("kube-apiserver").data) (("info").data) (-1)
      testResourceID false).fst = [] := by
  exact build_error_returns_empty_query.2 _ _ _ _ _ (by decide)

/-- C2: a category absent from the resource-specific table mapping makes
BuildSafeKQLQuery fail with an error naming the category as unsupported in
resource-specific mode, together with an empty query string — never a
generic-table fallback — while the same category in generic mode succeeds
with a non-empty query. -/
theorem resourceSpecific_unmapped_category_errors :
    ∀ (category logLevel : Str) (maxRecords : Int) (cid : Str),
      List.lookup category resourceSpecificTableMapping = none →
      ValidateKQLQueryParams category logLevel maxRecords cid
        ResourceSpecificMode = none →
      BuildSafeKQLQuery category logLevel maxRecords cid true =
        ([], some ((("category ").data) ++ [quoteCh] ++ category ++ [quoteCh]
          ++ ((" is not supported in resource-specific mode").data))) ∧
      (BuildSafeKQLQuery category logLevel maxRecords cid false).snd =
        none ∧
      (BuildSafeKQLQuery category logLevel maxRecords cid false).fst ≠
        [] := by
  intro c ll n cid hlk hv
  have hv0 : ValidateKQLQueryParams c ll n cid AzureDiagnosticsMode =
      none := by
    rw [validate_none_iff] at hv ⊢
    exact ⟨hv.1, hv.2.1, hv.2.2.1, hv.2.2.2.1, hv.2.2.2.2.1,
      hv.2.2.2.2.2.1, Or.inl rfl⟩
  have hne : genericTableName ≠ [] := by decide
  refine ⟨buildSafe_rs_unmapped hv hlk, ?_, ?_⟩
  · rw [buildSafe_generic_eq hv0]
  · rw [buildSafe_generic_eq hv0]
    show buildGenericQuery c ll n cid ≠ []
    unfold buildGenericQuery
    simp [List.append_eq_nil, hne]

/-- Witness for C2 at the test's unknown category. -/
theorem resourceSpecific_unmapped_category_errors_witness :
    BuildSafeKQLQuery (("unknown-category").data) (("info").data) 100
      testResourceID true =
      ([], some ((("category ").data) ++ [quoteCh]
        ++ ("unknown-category").data ++ [quoteCh]
        ++ ((" is not supported in resource-specific mode").data))) ∧
    (BuildSafeKQLQuery (("unknown-category").data) (("info").data) 100
      testResourceID false).snd = none := by
  have h := resourceSpecific_unmapped_category_errors
    (("unknown-category").data) (("info").data) 100 testResourceID
    (by decide) (by decide)
  exact ⟨h.1, h.2.1⟩

/-- The code point of a character built from a valid code point. -/
theorem toNat_ofNat_valid {n : Nat} (h : n.isValidChar) :
    (Char.ofNat n).toNat = n := by
  unfold Char.ofNat
  rw [dif_pos h]
  rfl

/-- Lower-case folding maps only the slash to a slash. -/
theorem lcChar_eq_slash {c : Char} (h : lcChar c = '/') : c = '/' := by
  unfold lcChar at h
  split_ifs at h with hc
  · exfalso
    have hv : (c.toNat + 32).isValidChar := Or.inl (by omega)
    have ht : (Char.ofNat (c.toNat + 32)).toNat = c.toNat + 32 :=
      toNat_ofNat_valid hv
    rw [h] at ht
    rw [show ('/' : Char).toNat = 47 from by decide] at ht
    omega
  · exact h

/-- Splitting never produces an empty list of segments. -/
theorem splitOnSlash_ne_nil : ∀ s : Str, splitOnSlash s ≠ [] := by
  intro s
  cases s with
  | nil => simp [splitOnSlash]
  | cons c r =>
    unfold splitOnSlash
    split
    · simp
    · split <;> simp

/-- A string whose first segment is empty, among several, starts with a
slash. -/
theorem slash_head_of_splitOnSlash {s : Str} {l : List Str}
    (h : splitOnSlash s = [] :: l) (hl : l ≠ []) : ∃ s2, s = '/' :: s2 := by
  cases s with
  | nil =>
    unfold splitOnSlash at h
    injection h with _ h2
    exact absurd h2.symm hl
  | cons c s3 =>
    by_cases hc : c = '/'
    · exact ⟨s3, by rw [hc]⟩
    · unfold splitOnSlash at h
      rw [if_neg hc] at h
      cases hsp : splitOnSlash s3 with
      | nil => exact absurd hsp (splitOnSlash_ne_nil s3)
      | cons s0 ss =>
        rw [hsp] at h
        injection h with h1 _
        exact absurd h1 (List.cons_ne_nil c s0)

/-- Every non-slash character of a string lives in one of its segments. -/
theorem mem_splitOnSlash : ∀ (s : Str) (ch : Char), ch ∈ s → ch ≠ '/' →
    ∃ seg, seg ∈ splitOnSlash s ∧ ch ∈ seg := by
  intro s
  induction s with
  | nil => intro ch h _; simp at h
  | cons c r ih =>
    intro ch h hch
    rcases List.mem_cons.mp h with rfl | hr
    · unfold splitOnSlash
      rw [if_neg hch]
      cases hsp : splitOnSlash r with
      | nil => exact absurd hsp (splitOnSlash_ne_nil r)
      | cons s0 ss =>
        exact ⟨ch :: s0, List.mem_cons_self _ _, List.mem_cons_self _ _⟩
    · obtain ⟨seg, hseg, hmem⟩ := ih ch hr hch
      unfold splitOnSlash
      by_cases hc : c = '/'
      · rw [if_pos hc]
        exact ⟨seg, List.mem_cons_of_mem _ hseg, hmem⟩
      · rw [if_neg hc]
        cases hsp : splitOnSlash r with
        | nil => exact absurd hsp (splitOnSlash_ne_nil r)
        | cons s0 ss =>
          rw [hsp] at hseg
          rcases List.mem_cons.mp hseg with rfl | htl
          · exact ⟨c :: seg, List.mem_cons_self _ _,
              List.mem_cons_of_mem _ hmem⟩
          · exact ⟨seg, List.mem_cons_of_mem _ htl, hmem⟩

/-- A pattern-valid identifier decomposes into the nine expected
segments. -/
theorem isValid_destruct {cid : Str}
    (h : isValidClusterResourceID cid = true) :
    ∃ subId rg name,
      splitOnSlash (strToLower cid) =
        [[], ("subscriptions").data, subId, ("resourcegroups").data, rg,
         ("providers").data, ("microsoft.containerservice").data,
         ("managedclusters").data, name] ∧
      segOk subId = true ∧ segOk rg = true ∧ segOk name = true := by
  unfold isValidClusterResourceID at h
  generalize hsp : splitOnSlash (strToLower cid) = S at h
  rcases S with _ | ⟨a, _ | ⟨b, _ | ⟨s1, _ | ⟨c2, _ | ⟨r1, _ | ⟨d2, _ |
    ⟨e2, _ | ⟨f2, _ | ⟨n1, _ | ⟨x, xs⟩⟩⟩⟩⟩⟩⟩⟩⟩⟩ <;> simp at h
  obtain ⟨⟨⟨⟨⟨⟨⟨⟨h1, h2⟩, h3⟩, h4⟩, h5⟩, h6⟩, h7⟩, h8⟩, h9⟩ := h
  subst h1 h2 h4 h6 h7 h8
  exact ⟨s1, r1, n1, rfl, h3, h5, h9⟩

/-- A pattern-valid identifier starts with a slash. -/
theorem valid_head_slash {cid : Str}
    (h : isValidClusterResourceID cid = true) : ∃ cid2, cid = '/' :: cid2 := by
  obtain ⟨subId, rg, name, hsp, -, -, -⟩ := isValid_destruct h
  obtain ⟨s2, hs2⟩ := slash_head_of_splitOnSlash hsp (by simp)
  cases cid with
  | nil => simp [strToLower] at hs2
  | cons c0 cid2 =>
    refine ⟨cid2, ?_⟩
    have hm : lcChar c0 = '/' := by
      have h9 : lcChar c0 :: strToLower cid2 = '/' :: s2 := hs2
      exact (List.cons_eq_cons.mp h9).1
    rw [lcChar_eq_slash hm]

/-- A pattern-valid identifier contains no quote character. -/
theorem valid_no_quote {cid : Str}
    (h : isValidClusterResourceID cid = true) : quoteCh ∉ cid := by
  intro hq
  have hmem : quoteCh ∈ strToLower cid := by
    have h2 := List.mem_map_of_mem lcChar hq
    rw [show lcChar quoteCh = quoteCh from by decide] at h2
    exact h2
  obtain ⟨subId, rg, name, hsp, hsub, hrg, hname⟩ := isValid_destruct h
  obtain ⟨seg, hseg, hqs⟩ := mem_splitOnSlash _ _ hmem (by decide)
  rw [hsp] at hseg
  simp only [List.mem_cons, List.not_mem_nil, or_false] at hseg
  have hsegOk : ∀ y : Str, segOk y = true → quoteCh ∈ y → False := by
    intro y hy hqy
    have := List.all_eq_true.mp (Bool.and_eq_true_iff.mp hy).2 _ hqy
    exact absurd this (by decide)
  rcases hseg with rfl | rfl | rfl | rfl | rfl | rfl | rfl | rfl | rfl
  · simp at hqs
  · exact absurd hqs (by decide)
  · exact hsegOk _ hsub hqs
  · exact absurd hqs (by decide)
  · exact hsegOk _ hrg hqs
  · exact absurd hqs (by decide)
  · exact absurd hqs (by decide)
  · exact absurd hqs (by decide)
  · exact hsegOk _ hname hqs

/-- No decimal digit renders as a slash. -/
theorem no_slash_digitChar : ∀ m, m < 10 → Nat.digitChar m ≠ '/' := by
  decide

/-- The digit accumulator never introduces a slash. -/
theorem no_slash_toDigitsCore : ∀ (fuel n : Nat) (ds : List Char),
    '/' ∉ ds → '/' ∉ Nat.toDigitsCore 10 fuel n ds := by
  intro fuel
  induction fuel with
  | zero => intro n ds h; exact h
  | succ fuel ih =>
    intro n ds h
    have hds : '/' ∉ Nat.digitChar (n % 10) :: ds := by
      intro hm
      rcases List.mem_cons.mp hm with h0 | h0
      · exact no_slash_digitChar _ (Nat.mod_lt _ (by omega)) h0.symm
      · exact h h0
    show '/' ∉
      (if n / 10 = 0 then Nat.digitChar (n % 10) :: ds
       else Nat.toDigitsCore 10 fuel (n / 10) (Nat.digitChar (n % 10) :: ds))
    split
    · exact hds
    · exact ih _ _ hds

/-- The decimal rendering of an integer contains no slash. -/
theorem no_slash_intToStr (n : Int) : '/' ∉ intToStr n := by
  unfold intToStr natToStr Nat.toDigits
  split
  · intro hm
    rcases List.mem_cons.mp hm with h0 | h0
    · exact absurd h0 (by decide)
    · exact no_slash_toDigitsCore _ _ _ (by simp) h0
  · exact no_slash_toDigitsCore _ _ _ (by simp)

/-- The generic severity prefix letter is never a slash. -/
theorem no_slash_genericLevelPrefix (ll : Str) :
    '/' ∉ genericLevelPrefix ll := by
  unfold genericLevelPrefix
  split_ifs <;> decide

/-- Core of C3's negative half: a needle that starts with a slash, has the
folded span's length, differs from it, and contains no quote cannot occur
in a haystack whose only slashes lie in the folded span and where the
closing quote follows that span. -/
theorem no_occurrence_of_folded_span {A fold B2 cid : Str}
    (hA : '/' ∉ A) (hB : '/' ∉ quoteCh :: B2)
    (hlen : cid.length = fold.length) (hne : cid ≠ fold)
    (hq : quoteCh ∉ cid) (hhd : ∃ cid2, cid = '/' :: cid2) :
    ¬ cid <:+: A ++ fold ++ (quoteCh :: B2) := by
  rintro ⟨u, v, huv⟩
  obtain ⟨cid2, rfl⟩ := hhd
  rw [List.append_assoc, List.append_assoc] at huv
  rcases List.append_eq_append_iff.mp huv with ⟨w, hw1, hw2⟩ | ⟨w, hw1, hw2⟩
  · cases w with
    | nil =>
      simp only [List.nil_append] at hw2
      exact hne (List.append_inj hw2 hlen).1
    | cons wc w2 =>
      simp only [List.cons_append] at hw2
      have hwc : wc = '/' := by
        injection hw2 with h1 _
        exact h1.symm
      apply hA
      rw [hw1, hwc]
      exact List.mem_append_right u (List.mem_cons_self _ _)
  · rcases List.append_eq_append_iff.mp hw2 with ⟨x, hx1, hx2⟩ |
      ⟨x, hx1, hx2⟩
    · apply hB
      rw [hx2]
      exact List.mem_append_right x
        (List.mem_append_left _ (List.mem_cons_self _ _))
    · cases w with
      | nil =>
        simp only [List.nil_append] at hx1
        subst hx1
        exact hne (List.append_inj hx2 hlen).1
      | cons wc w2 =>
        cases x with
        | nil =>
          simp only [List.nil_append] at hx2
          apply hB
          rw [← hx2]
          exact List.mem_append_left _ (List.mem_cons_self _ _)
        | cons xc x2 =>
          have hfl : fold.length = (wc :: w2).length + (xc :: x2).length := by
            rw [hx1]
            simp only [List.length_append, List.length_cons, List.length_nil]
            try omega
          rcases List.append_eq_append_iff.mp hx2 with ⟨y, hy1, hy2⟩ |
            ⟨y, hy1, hy2⟩
          · have : (xc :: x2).length = ('/' :: cid2).length + y.length := by
              rw [hy1]
              simp only [List.length_append, List.length_cons, List.length_nil]
              try omega
            simp only [List.length_cons] at hlen hfl this
            omega
          · cases y with
            | nil =>
              have : ('/' :: cid2).length = (xc :: x2).length := by
                rw [hy1]
                simp only [List.length_append, List.length_cons, List.length_nil]
                try omega
              simp only [List.length_cons] at hlen hfl this
              omega
            | cons yc y2 =>
              have hyc : yc = quoteCh := by
                simp only [List.cons_append] at hy2
                injection hy2 with h1 _
                exact h1.symm
              apply hq
              rw [hy1, hyc]
              exact List.mem_append_right _ (List.mem_cons_self _ _)

/-- A generic-mode query never contains the original identifier when it
differs from its upper-case fold. -/
theorem generic_no_original_cid {c ll : Str} {n : Int} {cid : Str}
    (hc : '/' ∉ c) (hval : isValidClusterResourceID cid = true)
    (hne : cid ≠ strToUpper cid) :
    ¬ cid <:+: buildGenericQuery c ll n cid := by
  have hquery : buildGenericQuery c ll n cid =
      (genericTableName ++ (" | where ResourceId == ").data ++ [quoteCh])
      ++ strToUpper cid
      ++ (quoteCh ::
          ((" | where Category == ").data ++ ([quoteCh] ++ (c ++ ([quoteCh]
          ++ ((if !ll.isEmpty && !isAuditCategory c then
                (" | where log_s startswith ").data ++ ([quoteCh]
                  ++ (genericLevelPrefix ll ++ [quoteCh]))
              else [])
          ++ ((" | order by TimeGenerated desc").data
          ++ ((" | limit ").data ++ (intToStr n
          ++ ((" | ").data ++ genericProjection)))))))))) := by
    unfold buildGenericQuery
    simp [List.append_assoc]
  rw [hquery]
  apply no_occurrence_of_folded_span
  · decide
  · refine fun hm => (List.mem_cons.mp hm).elim
      (fun h0 => absurd h0 (by decide)) ?_
    refine List.not_mem_append (by decide) ?_
    refine List.not_mem_append (by decide) ?_
    refine List.not_mem_append hc ?_
    refine List.not_mem_append (by decide) ?_
    refine List.not_mem_append ?_ ?_
    · split
      · refine List.not_mem_append (by decide) ?_
        refine List.not_mem_append (by decide) ?_
        exact List.not_mem_append (no_slash_genericLevelPrefix ll)
          (by decide)
      · simp
    · refine List.not_mem_append (by decide) ?_
      refine List.not_mem_append (by decide) ?_
      refine List.not_mem_append (no_slash_intToStr n) ?_
      exact List.not_mem_append (by decide) (by decide)
  · exact (List.length_map _ _).symm
  · exact hne
  · exact valid_no_quote hval
  · exact valid_head_slash hval

/-- A resource-specific query never contains the original identifier when
it differs from its lower-case fold. -/
theorem rs_no_original_cid {t c ll : Str} {n : Int} {cid : Str}
    (ht : '/' ∉ t) (hc : '/' ∉ c) (hll : ll ∈ validLogLevels)
    (hval : isValidClusterResourceID cid = true)
    (hne : cid ≠ strToLower cid) :
    ¬ cid <:+: buildResourceSpecificQuery t c ll n cid := by
  have hllns : '/' ∉ strToUpper ll := by
    simp only [validLogLevels, List.mem_cons, List.not_mem_nil,
      or_false] at hll
    rcases hll with rfl | rfl | rfl | rfl <;> decide
  have hquery : buildResourceSpecificQuery t c ll n cid =
      (t ++ ((" | where _ResourceId == ").data ++ [quoteCh]))
      ++ strToLower cid
      ++ (quoteCh ::
          ((if t == ("AKSControlPlane").data then
              (" | where Category == ").data ++ ([quoteCh]
                ++ (c ++ [quoteCh]))
            else [])
          ++ ((if !ll.isEmpty && t == ("AKSControlPlane").data then
                (" | where Level == ").data ++ ([quoteCh]
                  ++ (strToUpper ll ++ [quoteCh]))
              else [])
          ++ ((" | order by TimeGenerated desc").data
          ++ ((" | limit ").data ++ (intToStr n
          ++ ((" | ").data
          ++ (if t == ("AKSControlPlane").data then controlPlaneProjection
              else auditProjection)))))))) := by
    unfold buildResourceSpecificQuery
    simp [List.append_assoc]
  rw [hquery]
  apply no_occurrence_of_folded_span
  · exact List.not_mem_append ht
      (List.not_mem_append (by decide) (by decide))
  · refine fun hm => (List.mem_cons.mp hm).elim
      (fun h0 => absurd h0 (by decide)) ?_
    refine List.not_mem_append ?_ ?_
    · split
      · refine List.not_mem_append (by decide) ?_
        refine List.not_mem_append (by decide) ?_
        exact List.not_mem_append hc (by decide)
      · simp
    · refine List.not_mem_append ?_ ?_
      · split
        · refine List.not_mem_append (by decide) ?_
          refine List.not_mem_append (by decide) ?_
          exact List.not_mem_append hllns (by decide)
        · simp
      · refine List.not_mem_append (by decide) ?_
        refine List.not_mem_append (by decide) ?_
        refine List.not_mem_append (no_slash_intToStr n) ?_
        refine List.not_mem_append (by decide) ?_
        split <;> decide
  · exact (List.length_map _ _).symm
  · exact hne
  · exact valid_no_quote hval
  · exact valid_head_slash hval

/-- C3: every successfully built generic-mode query contains the cluster
resource identifier folded to uppercase, every successfully built
resource-specific query contains it folded to lowercase, and for every
known category, log level, record limit and identifier, neither mode's
successfully built query contains the caller's original mixed-case form
when it differs from the folded one. -/
theorem resource_id_case_folding :
    (∀ (category logLevel : Str) (maxRecords : Int) (cid : Str) (rs : Bool),
       (BuildSafeKQLQuery category logLevel maxRecords cid rs).snd = none →
       isSubstr (if rs then strToLower cid else strToUpper cid)
         (BuildSafeKQLQuery category logLevel maxRecords cid rs).fst =
         true) ∧
    (∀ category ∈ controlPlaneCategories ++ auditCategories,
     ∀ (logLevel : Str) (maxRecords : Int) (cid : Str) (rs : Bool),
       (BuildSafeKQLQuery category logLevel maxRecords cid rs).snd = none →
       cid ≠ (if rs then strToLower cid else strToUpper cid) →
       isSubstr cid
         (BuildSafeKQLQuery category logLevel maxRecords cid rs).fst =
         false) := by
  have hfacts : ∀ x ∈ controlPlaneCategories ++ auditCategories,
      '/' ∉ x ∧
      '/' ∉ (List.lookup x resourceSpecificTableMapping).getD [] := by
    decide
  constructor
  · intro c ll n cid rs h
    apply isSubstr_iff.mpr
    cases rs with
    | false =>
      cases hv : ValidateKQLQueryParams c ll n cid AzureDiagnosticsMode with
      | some e =>
        unfold BuildSafeKQLQuery at h
        rw [show modeOf false = AzureDiagnosticsMode from rfl, hv] at h
        simp at h
      | none =>
        rw [buildSafe_generic_eq hv]
        show strToUpper cid <:+: buildGenericQuery c ll n cid
        apply occurs_of_eq_append
          (genericTableName ++ (" | where ResourceId == ").data ++ [quoteCh])
          ([quoteCh] ++ (" | where Category == ").data ++ [quoteCh] ++ c
            ++ [quoteCh]
            ++ (if !ll.isEmpty && !isAuditCategory c then
                  (" | where log_s startswith ").data ++ [quoteCh]
                    ++ genericLevelPrefix ll ++ [quoteCh]
                else [])
            ++ (" | order by TimeGenerated desc").data
            ++ (" | limit ").data ++ intToStr n
            ++ (" | ").data ++ genericProjection)
        unfold buildGenericQuery
        simp [List.append_assoc]
    | true =>
      cases hv : ValidateKQLQueryParams c ll n cid ResourceSpecificMode with
      | some e =>
        unfold BuildSafeKQLQuery at h
        rw [show modeOf true = ResourceSpecificMode from rfl, hv] at h
        simp at h
      | none =>
        cases hlk : List.lookup c resourceSpecificTableMapping with
        | none => rw [buildSafe_rs_unmapped hv hlk] at h; simp at h
        | some t =>
          rw [buildSafe_rs_eq hv hlk]
          show strToLower cid <:+: buildResourceSpecificQuery t c ll n cid
          apply occurs_of_eq_append
            (t ++ (" | where _ResourceId == ").data ++ [quoteCh])
            ([quoteCh]
              ++ (if t == ("AKSControlPlane").data then
                    (" | where Category == ").data ++ [quoteCh] ++ c
                      ++ [quoteCh]
                  else [])
              ++ (if !ll.isEmpty && t == ("AKSControlPlane").data then
                    (" | where Level == ").data ++ [quoteCh]
                      ++ strToUpper ll ++ [quoteCh]
                  else [])
              ++ (" | order by TimeGenerated desc").data
              ++ (" | limit ").data ++ intToStr n
              ++ (" | ").data
              ++ (if t == ("AKSControlPlane").data then
                    controlPlaneProjection
                  else auditProjection))
          unfold buildResourceSpecificQuery
          simp [List.append_assoc]
  · intro c hcmem ll n cid rs h hne
    cases rs with
    | false =>
      cases hv : ValidateKQLQueryParams c ll n cid AzureDiagnosticsMode with
      | some e =>
        unfold BuildSafeKQLQuery at h
        rw [show modeOf false = AzureDiagnosticsMode from rfl, hv] at h
        simp at h
      | none =>
        have hval := ((validate_none_iff c ll n cid _).mp hv).2.2.2.2.2.1
        rw [buildSafe_generic_eq hv]
        show isSubstr cid (buildGenericQuery c ll n cid) = false
        rw [Bool.eq_false_iff]
        intro hb
        exact generic_no_original_cid (hfacts c hcmem).1 hval
          (by simpa using hne) (isSubstr_iff.mp hb)
    | true =>
      cases hv : ValidateKQLQueryParams c ll n cid ResourceSpecificMode with
      | some e =>
        unfold BuildSafeKQLQuery at h
        rw [show modeOf true = ResourceSpecificMode from rfl, hv] at h
        simp at h
      | none =>
        cases hlk : List.lookup c resourceSpecificTableMapping with
        | none => rw [buildSafe_rs_unmapped hv hlk] at h; simp at h
        | some t =>
          have hinfo := (validate_none_iff c ll n cid _).mp hv
          have hval := hinfo.2.2.2.2.2.1
          have hll := hinfo.2.1
          have ht : '/' ∉ t := by
            have h2 := (hfacts c hcmem).2
            rw [hlk] at h2
            exact h2
          rw [buildSafe_rs_eq hv hlk]
          show isSubstr cid (buildResourceSpecificQuery t c ll n cid) = false
          rw [Bool.eq_false_iff]
          intro hb
          exact rs_no_original_cid ht (hfacts c hcmem).1 hll hval
            (by simpa using hne) (isSubstr_iff.mp hb)

/-- Witness for C3: the mixed-case test identifier appears upper-cased in
the generic query, and its original form does not appear. -/
theorem resource_id_case_folding_witness :
    isSubstr (strToUpper (caseSensitivityTestIDs.get ⟨0, by decide⟩))
      (BuildSafeKQLQuery (("kube-apiserver").data) [] 100
        (caseSensitivityTestIDs.get ⟨0, by decide⟩) false).fst = true ∧
    isSubstr (caseSensitivityTestIDs.get ⟨0, by decide⟩)
      (BuildSafeKQLQuery (("kube-apiserver").data) [] 100
        (caseSensitivityTestIDs.get ⟨0, by decide⟩) false).fst = false := by
  constructor
  · exact resource_id_case_folding.1 (("kube-apiserver").data) [] 100
      (caseSensitivityTestIDs.get ⟨0, by decide⟩) false (by decide)
  · exact resource_id_case_folding.2 (("kube-apiserver").data) (by decide)
      [] 100 (caseSensitivityTestIDs.get ⟨0, by decide⟩) false
      (by decide) (by decide)

/-- C10: the column projection of every successfully built query is the
fixed literal determined solely by the routed table — the generic
projection in generic mode, the control-plane projection for categories
routed to AKSControlPlane, and the audit projection for the two dedicated
audit tables — independent of logLevel, maxRecords and resource
identifier. -/
theorem projection_fixed_by_table :
    ∀ (category logLevel : Str) (maxRecords : Int) (cid : Str),
      ((BuildSafeKQLQuery category logLevel maxRecords cid false).snd =
          none →
        genericProjection <:+
          (BuildSafeKQLQuery category logLevel maxRecords cid false).fst) ∧
      ((BuildSafeKQLQuery category logLevel maxRecords cid true).snd =
          none →
        (List.lookup category resourceSpecificTableMapping =
            some (("AKSControlPlane").data) →
          controlPlaneProjection <:+
            (BuildSafeKQLQuery category logLevel maxRecords cid true).fst) ∧
        ((List.lookup category resourceSpecificTableMapping =
            some (("AKSAudit").data) ∨
          List.lookup category resourceSpecificTableMapping =
            some (("AKSAuditAdmin").data)) →
          auditProjection <:+
            (BuildSafeKQLQuery category logLevel maxRecords cid true).fst)) := by
  intro c ll n cid
  constructor
  · intro h
    cases hv : ValidateKQLQueryParams c ll n cid AzureDiagnosticsMode with
    | some e =>
      unfold BuildSafeKQLQuery at h
      rw [show modeOf false = AzureDiagnosticsMode from rfl, hv] at h
      simp at h
    | none =>
      rw [buildSafe_generic_eq hv]
      show genericProjection <:+ buildGenericQuery c ll n cid
      unfold buildGenericQuery
      exact ⟨_, rfl⟩
  · intro h
    cases hv : ValidateKQLQueryParams c ll n cid ResourceSpecificMode with
    | some e =>
      unfold BuildSafeKQLQuery at h
      rw [show modeOf true = ResourceSpecificMode from rfl, hv] at h
      simp at h
    | none =>
      constructor
      · intro hcp
        rw [buildSafe_rs_eq hv hcp]
        show controlPlaneProjection <:+
          buildResourceSpecificQuery (("AKSControlPlane").data) c ll n cid
        unfold buildResourceSpecificQuery
        rw [if_pos (show ((("AKSControlPlane").data ==
          ("AKSControlPlane").data) = true) by decide)]
        exact ⟨_, rfl⟩
      · intro haud
        rcases haud with haud | haud
        · rw [buildSafe_rs_eq hv haud]
          show auditProjection <:+
            buildResourceSpecificQuery (("AKSAudit").data) c ll n cid
          unfold buildResourceSpecificQuery
          rw [if_neg (show ¬((("AKSAudit").data ==
            ("AKSControlPlane").data) = true) by decide)]
          exact ⟨_, rfl⟩
        · rw [buildSafe_rs_eq hv haud]
          show auditProjection <:+
            buildResourceSpecificQuery (("AKSAuditAdmin").data) c ll n cid
          unfold buildResourceSpecificQuery
          rw [if_neg (show ¬((("AKSAuditAdmin").data ==
            ("AKSControlPlane").data) = true) by decide)]
          exact ⟨_, rfl⟩

/-- Witness for C10: an audit query ends with the audit projection. -/
theorem projection_fixed_by_table_witness :
    auditProjection <:+
      (BuildSafeKQLQuery (("kube-audit").data) [] 100 testResourceID
        true).fst := by
  exact ((projection_fixed_by_table (("kube-audit").data) [] 100
    testResourceID).2 (by decide)).2 (Or.inl (by decide))

/-- C5: the validator rejects exactly the field-rule violations — empty
category, log level outside the four admissible values, record count
outside [1, 1000], empty or ill-formed cluster resource identifier, or an
undefined table mode — each rejection names the offending field, nothing is
defaulted or coerced, and every accepted record count appears verbatim in
the built query's limit clause. -/
theorem validateKQLQueryParams_contract :
    ∀ (category logLevel : Str) (maxRecords : Int) (cid : Str)
      (tableMode : TableMode),
      (ValidateKQLQueryParams category logLevel maxRecords cid tableMode =
          none ↔
        (category ≠ [] ∧ logLevel ∈ validLogLevels ∧ 1 ≤ maxRecords ∧
         maxRecords ≤ maxAllowedRecords ∧ cid ≠ [] ∧
         isValidClusterResourceID cid = true ∧
         (tableMode = AzureDiagnosticsMode ∨
          tableMode = ResourceSpecificMode))) ∧
      (category = [] →
        ValidateKQLQueryParams category logLevel maxRecords cid tableMode =
          some (("category cannot be empty").data)) ∧
      (category ≠ [] → logLevel ∉ validLogLevels →
        ValidateKQLQueryParams category logLevel maxRecords cid tableMode =
          some ((("invalid log level: ").data) ++ logLevel)) ∧
      (category ≠ [] → logLevel ∈ validLogLevels → maxRecords < 1 →
        ValidateKQLQueryParams category logLevel maxRecords cid tableMode =
          some (("maxRecords must be at least 1").data)) ∧
      (category ≠ [] → logLevel ∈ validLogLevels → 1 ≤ maxRecords →
        maxAllowedRecords < maxRecords →
        ValidateKQLQueryParams category logLevel maxRecords cid tableMode =
          some (("maxRecords cannot exceed 1000").data)) ∧
      (category ≠ [] → logLevel ∈ validLogLevels → 1 ≤ maxRecords →
        maxRecords ≤ maxAllowedRecords → cid = [] →
        ValidateKQLQueryParams category logLevel maxRecords cid tableMode =
          some (("clusterResourceID cannot be empty").data)) ∧
      (category ≠ [] → logLevel ∈ validLogLevels → 1 ≤ maxRecords →
        maxRecords ≤ maxAllowedRecords → cid ≠ [] →
        isValidClusterResourceID cid = false →
        ValidateKQLQueryParams category logLevel maxRecords cid tableMode =
          some (("invalid clusterResourceID format").data)) ∧
      (category ≠ [] → logLevel ∈ validLogLevels → 1 ≤ maxRecords →
        maxRecords ≤ maxAllowedRecords → cid ≠ [] →
        isValidClusterResourceID cid = true →
        tableMode ≠ AzureDiagnosticsMode →
        tableMode ≠ ResourceSpecificMode →
        ValidateKQLQueryParams category logLevel maxRecords cid tableMode =
          some ((("invalid tableMode: ").data) ++ intToStr tableMode)) ∧
      (∀ isRS : Bool,
        (BuildSafeKQLQuery category logLevel maxRecords cid isRS).snd =
          none →
        ((" | limit ").data ++ intToStr maxRecords) <:+:
          (BuildSafeKQLQuery category logLevel maxRecords cid isRS).fst) := by
  intro c ll n cid m
  refine ⟨validate_none_iff c ll n cid m, ?_, ?_, ?_, ?_, ?_, ?_, ?_, ?_⟩
  · intro h1
    unfold ValidateKQLQueryParams
    rw [if_pos (by simp [h1])]
  · intro h1 h2
    unfold ValidateKQLQueryParams
    rw [if_neg (by simp [h1]), if_pos (by simpa using h2)]
  · intro h1 h2 h3
    unfold ValidateKQLQueryParams
    rw [if_neg (by simp [h1]),
      if_neg (by simpa using h2),
      if_pos h3]
  · intro h1 h2 h3 h4
    unfold ValidateKQLQueryParams
    rw [if_neg (by simp [h1]),
      if_neg (by simpa using h2),
      if_neg (by omega), if_pos (by omega)]
  · intro h1 h2 h3 h4 h5
    unfold ValidateKQLQueryParams
    rw [if_neg (by simp [h1]),
      if_neg (by simpa using h2),
      if_neg (by omega), if_neg (by omega), if_pos (by simp [h5])]
  · intro h1 h2 h3 h4 h5 h6
    unfold ValidateKQLQueryParams
    rw [if_neg (by simp [h1]),
      if_neg (by simpa using h2),
      if_neg (by omega), if_neg (by omega), if_neg (by simp [h5]),
      if_pos (by simp [h6])]
  · intro h1 h2 h3 h4 h5 h6 h7 h8
    unfold ValidateKQLQueryParams
    rw [if_neg (by simp [h1]),
      if_neg (by simpa using h2),
      if_neg (by omega), if_neg (by omega), if_neg (by simp [h5]),
      if_neg (by simp [h6]), if_pos (by simp [h7, h8])]
  · intro rs h
    cases rs with
    | false =>
      cases hv : ValidateKQLQueryParams c ll n cid AzureDiagnosticsMode with
      | some e =>
        unfold BuildSafeKQLQuery at h
        rw [show modeOf false = AzureDiagnosticsMode from rfl, hv] at h
        simp at h
      | none =>
        rw [buildSafe_generic_eq hv]
        show ((" | limit ").data ++ intToStr n) <:+:
          buildGenericQuery c ll n cid
        apply occurs_of_eq_append
          (genericTableName ++ (" | where ResourceId == ").data ++ [quoteCh]
            ++ strToUpper cid ++ [quoteCh]
            ++ (" | where Category == ").data ++ [quoteCh] ++ c ++ [quoteCh]
            ++ (if !ll.isEmpty && !isAuditCategory c then
                  (" | where log_s startswith ").data ++ [quoteCh]
                    ++ genericLevelPrefix ll ++ [quoteCh]
                else [])
            ++ (" | order by TimeGenerated desc").data)
          ((" | ").data ++ genericProjection)
        unfold buildGenericQuery
        simp [List.append_assoc]
    | true =>
      cases hv : ValidateKQLQueryParams c ll n cid ResourceSpecificMode with
      | some e =>
        unfold BuildSafeKQLQuery at h
        rw [show modeOf true = ResourceSpecificMode from rfl, hv] at h
        simp at h
      | none =>
        cases hlk : List.lookup c resourceSpecificTableMapping with
        | none => rw [buildSafe_rs_unmapped hv hlk] at h; simp at h
        | some t =>
          rw [buildSafe_rs_eq hv hlk]
          show ((" | limit ").data ++ intToStr n) <:+:
            buildResourceSpecificQuery t c ll n cid
          apply occurs_of_eq_append
            (t ++ (" | where _ResourceId == ").data ++ [quoteCh]
              ++ strToLower cid ++ [quoteCh]
              ++ (if t == ("AKSControlPlane").data then
                    (" | where Category == ").data ++ [quoteCh] ++ c
                      ++ [quoteCh]
                  else [])
              ++ (if !ll.isEmpty && t == ("AKSControlPlane").data then
                    (" | where Level == ").data ++ [quoteCh]
                      ++ strToUpper ll ++ [quoteCh]
                  else [])
              ++ (" | order by TimeGenerated desc").data)
            ((" | ").data
              ++ (if t == ("AKSControlPlane").data then
                    controlPlaneProjection
                  else auditProjection))
          unfold buildResourceSpecificQuery
          simp [List.append_assoc]

/-- Witness for C5: the valid test parameters are accepted and the record
count appears verbatim in the limit clause. -/
theorem validateKQLQueryParams_contract_witness :
    ValidateKQLQueryParams (("kube-apiserver").data) (("info").data) 100
      testResourceID AzureDiagnosticsMode = none ∧
    ((" | limit ").data ++ intToStr 100) <:+:
      (BuildSafeKQLQuery (("kube-apiserver").data) (("info").data) 100
        testResourceID false).fst := by
  have h := validateKQLQueryParams_contract (("kube-apiserver").data)
    (("info").data) 100 testResourceID AzureDiagnosticsMode
  exact ⟨(h.1).mpr (by decide), h.2.2.2.2.2.2.2.2 false (by decide)⟩

/-- C7: every successfully built query is a single line (no newline), and
its clauses appear in the fixed pipeline order: table name first, then the
resource-identity filter, then the category filter when required, then the
severity filter when permitted and requested, then the descending time
ordering, then the limit, then the projection last. Determinism of the
builder holds definitionally: the model is a pure function of its
arguments. -/
theorem query_single_line_and_clause_order :
    ∀ c ∈ controlPlaneCategories ++ auditCategories,
    ∀ ll ∈ validLogLevels, ∀ rs ∈ [false, true],
      ¬ newlineCh ∈ (BuildSafeKQLQuery c ll 100 testResourceID rs).fst ∧
      clausesInOrder
        (if rs then
          [(List.lookup c resourceSpecificTableMapping).getD [],
           ("where _ResourceId == ").data] ++
          (if isAuditCategory c then [] else [categoryFilterClause c]) ++
          (if isAuditCategory c || ll.isEmpty then []
           else [("where Level == ").data]) ++
          [("order by TimeGenerated desc").data, ("limit ").data,
           ("project ").data]
        else
          [genericTableName, ("where ResourceId == ").data,
           categoryFilterClause c] ++
          (if isAuditCategory c || ll.isEmpty then []
           else [("where log_s startswith ").data]) ++
          [("order by TimeGenerated desc").data, ("limit ").data,
           ("project ").data])
        (BuildSafeKQLQuery c ll 100 testResourceID rs).fst = true := by
  decide

/-- Witness for C7: the generic kube-apiserver info query is one line with
the clauses in pipeline order. -/
theorem query_single_line_and_clause_order_witness :
    ¬ newlineCh ∈ (BuildSafeKQLQuery (("kube-apiserver").data)
      (("info").data) 100 testResourceID false).fst ∧
    clausesInOrder
      [genericTableName, ("where ResourceId == ").data,
       categoryFilterClause (("kube-apiserver").data),
       ("where log_s startswith ").data,
       ("order by TimeGenerated desc").data, ("limit ").data,
       ("project ").data]
      (BuildSafeKQLQuery (("kube-apiserver").data) (("info").data) 100
        testResourceID false).fst = true := by
  exact query_single_line_and_clause_order (("kube-apiserver").data)
    (by decide) (("info").data) (by decide) false (by decide)

/-- A character matched by a slash-free pattern element is not a slash. -/
theorem not_slash_of_patOk {p : TimePat} {c : Char}
    (hp : patOk p c = true) (hn : noSlashPat p = true) : c ≠ '/' := by
  cases p with
  | digit =>
    intro hc
    subst hc
    exact absurd hp (by decide)
  | lit d =>
    intro hc
    subst hc
    have hd : ('/' : Char) = d := by simpa [patOk] using hp
    subst hd
    exact absurd hn (by decide)

/-- A string consumed by a slash-free pattern whose remainder is slash-free
is itself slash-free. -/
theorem matchPat_no_slash : ∀ (ps : List TimePat) (s r : Str),
    matchPat ps s = some r → noSlashPats ps = true → '/' ∉ r → '/' ∉ s := by
  intro ps
  induction ps with
  | nil =>
    intro s r h _ hr
    simp [matchPat] at h
    rw [h]
    exact hr
  | cons p ps ih =>
    intro s r h hn hr
    cases s with
    | nil => simp [matchPat] at h
    | cons c s2 =>
      simp only [matchPat] at h
      by_cases hp : patOk p c = true
      · rw [if_pos hp] at h
        have hn2 : noSlashPat p = true ∧ ps.all noSlashPat = true := by
          simpa [noSlashPats, List.all_cons] using hn
        intro hmem
        rcases List.mem_cons.mp hmem with hc | hc
        · exact (not_slash_of_patOk hp hn2.1) hc.symm
        · exact (ih s2 r h (by simpa [noSlashPats] using hn2.2) hr) hc
      · rw [if_neg hp] at h
        exact absurd h (by simp)

/-- A well-formed timezone suffix contains no slash. -/
theorem validTZ_no_slash : ∀ s : Str, validTZ s = true → '/' ∉ s := by
  intro s h
  cases s with
  | nil => simp [validTZ] at h
  | cons c r =>
    simp only [validTZ, Bool.or_eq_true, Bool.and_eq_true] at h
    intro hmem
    rcases List.mem_cons.mp hmem with hc | hc
    · rcases h with ⟨hz, _⟩ | ⟨hs, _⟩
      · rw [← hc] at hz
        exact absurd hz (by decide)
      · rcases hs with hs | hs <;> rw [← hc] at hs <;>
          exact absurd hs (by decide)
    · rcases h with ⟨_, hz⟩ | ⟨_, hm⟩
      · rw [List.isEmpty_iff.mp hz] at hc
        exact absurd hc (by simp)
      · have hmm : matchPat offsetPat r = some [] := by
          simpa using hm
        exact (matchPat_no_slash offsetPat r [] hmm (by decide)
          (by simp)) hc

/-- A well-formed fraction tail contains no slash. -/
theorem validFracTail_no_slash : ∀ s : Str, validFracTail s = true →
    '/' ∉ s := by
  intro s
  induction s with
  | nil => intro h; simp [validFracTail] at h
  | cons c r ih =>
    intro h hmem
    simp only [validFracTail] at h
    by_cases hd : c.isDigit = true
    · rw [if_pos hd] at h
      rcases List.mem_cons.mp hmem with hc | hc
      · rw [← hc] at hd
        exact absurd hd (by decide)
      · exact (ih h) hc
    · rw [if_neg hd] at h
      exact (validTZ_no_slash (c :: r) h) hmem

/-- A well-formed fractional-seconds part contains no slash. -/
theorem validFrac_no_slash : ∀ s : Str, validFrac s = true → '/' ∉ s := by
  intro s h hmem
  cases s with
  | nil => simp [validFrac] at h
  | cons c r =>
    simp only [validFrac, Bool.and_eq_true] at h
    rcases List.mem_cons.mp hmem with hc | hc
    · rw [← hc] at h
      exact absurd h.1 (by decide)
    · exact (validFracTail_no_slash r h.2) hc

/-- A well-formed seconds suffix contains no slash. -/
theorem validTimeSuffix_no_slash : ∀ s : Str,
    validTimeSuffix s = true → '/' ∉ s := by
  intro s h hmem
  cases s with
  | nil => simp [validTimeSuffix] at h
  | cons c r =>
    simp only [validTimeSuffix] at h
    by_cases hdot : (c == '.') = true
    · rw [if_pos hdot] at h
      rcases List.mem_cons.mp hmem with hc | hc
      · rw [← hc] at hdot
        exact absurd hdot (by decide)
      · exact (validFrac_no_slash r h) hc
    · rw [if_neg hdot] at h
      exact (validTZ_no_slash (c :: r) h) hmem

/-- A well-formed RFC3339 timestamp contains no slash. -/
theorem isValidRFC3339_no_slash {s : Str} (h : isValidRFC3339 s = true) :
    '/' ∉ s := by
  unfold isValidRFC3339 at h
  cases hm : matchPat dateTimePat s with
  | none => rw [hm] at h; simp at h
  | some rest =>
    rw [hm] at h
    exact matchPat_no_slash dateTimePat s rest hm (by decide)
      (validTimeSuffix_no_slash rest h)

/-- A slash-free string is not split. -/
theorem splitOnSlash_no_slash : ∀ s : Str, '/' ∉ s →
    splitOnSlash s = [s] := by
  intro s
  induction s with
  | nil => intro _; rfl
  | cons c r ih =>
    intro h
    have hc : ¬ c = '/' := by
      intro hc
      exact h (by simp [hc])
    unfold splitOnSlash
    rw [if_neg hc, ih (fun hm => h (List.mem_cons_of_mem c hm))]

/-- Joining two slash-free strings with a slash splits back into exactly
those two parts. -/
theorem splitOnSlash_pair : ∀ a b : Str, '/' ∉ a → '/' ∉ b →
    splitOnSlash (a ++ '/' :: b) = [a, b] := by
  intro a
  induction a with
  | nil =>
    intro b _ hb
    show splitOnSlash ('/' :: b) = [[], b]
    unfold splitOnSlash
    rw [if_pos rfl, splitOnSlash_no_slash b hb]
  | cons c a2 ih =>
    intro b ha hb
    have hc : ¬ c = '/' := by
      intro hc
      exact ha (by simp [hc])
    show splitOnSlash (c :: (a2 ++ '/' :: b)) = [c :: a2, b]
    unfold splitOnSlash
    rw [if_neg hc, ih b (fun hm => ha (List.mem_cons_of_mem c hm)) hb]

/-- C9: the timespan calculator returns the single interval literal
`start/end` — exactly two parts joined by a slash — preserving both
timestamps verbatim (hence the start time and the start-to-end duration),
with the end defaulting to the current clock reading when omitted, and it
fails with an error naming whichever of the two fields did not parse. -/
theorem calculateTimespan_contract :
    ∀ startTime endTime nowStr : Str,
      (isValidRFC3339 startTime = true → '/' ∉ nowStr → endTime = [] →
        CalculateTimespan startTime endTime nowStr =
          (startTime ++ '/' :: nowStr, none) ∧
        splitOnSlash (CalculateTimespan startTime endTime nowStr).fst =
          [startTime, nowStr]) ∧
      (isValidRFC3339 startTime = true → isValidRFC3339 endTime = true →
        CalculateTimespan startTime endTime nowStr =
          (startTime ++ '/' :: endTime, none) ∧
        splitOnSlash (CalculateTimespan startTime endTime nowStr).fst =
          [startTime, endTime]) ∧
      (isValidRFC3339 startTime = false →
        CalculateTimespan startTime endTime nowStr =
          ([], some ((("invalid start time format: ").data)
            ++ startTime))) ∧
      (isValidRFC3339 startTime = true → endTime ≠ [] →
        isValidRFC3339 endTime = false →
        CalculateTimespan startTime endTime nowStr =
          ([], some ((("invalid end time format: ").data) ++ endTime))) := by
  intro st et nw
  refine ⟨?_, ?_, ?_, ?_⟩
  · intro hst hnw het
    subst het
    have heq : CalculateTimespan st [] nw = (st ++ '/' :: nw, none) := by
      unfold CalculateTimespan
      rw [if_neg (by simp [hst]), if_pos (by simp)]
    refine ⟨heq, ?_⟩
    rw [heq]
    exact splitOnSlash_pair st nw (isValidRFC3339_no_slash hst) hnw
  · intro hst het
    have hne : ¬ et.isEmpty = true := by
      intro he
      rw [List.isEmpty_iff.mp he] at het
      exact absurd het (by decide)
    have heq : CalculateTimespan st et nw = (st ++ '/' :: et, none) := by
      unfold CalculateTimespan
      rw [if_neg (by simp [hst]), if_neg hne, if_neg (by simp [het])]
    refine ⟨heq, ?_⟩
    rw [heq]
    exact splitOnSlash_pair st et (isValidRFC3339_no_slash hst)
      (isValidRFC3339_no_slash het)
  · intro hst
    unfold CalculateTimespan
    rw [if_pos (by simp [hst])]
  · intro hst hne het
    unfold CalculateTimespan
    rw [if_neg (by simp [hst]),
      if_neg (by simpa [List.isEmpty_iff] using hne),
      if_pos (by simp [het])]

/-- Witness for C9 at the test's timestamps: a one-hour interval and the
invalid-start error. -/
theorem calculateTimespan_contract_witness :
    CalculateTimespan (("2025-07-15T10:00:00Z").data)
        (("2025-07-15T11:00:00Z").data) (("2025-07-15T12:00:00Z").data) =
      ((("2025-07-15T10:00:00Z").data) ++ '/' ::
        (("2025-07-15T11:00:00Z").data), none) ∧
    splitOnSlash (CalculateTimespan (("2025-07-15T10:00:00Z").data)
        (("2025-07-15T11:00:00Z").data)
        (("2025-07-15T12:00:00Z").data)).fst =
      [(("2025-07-15T10:00:00Z").data), (("2025-07-15T11:00:00Z").data)] ∧
    CalculateTimespan (("invalid-time").data) []
        (("2025-07-15T12:00:00Z").data) =
      ([], some ((("invalid start time format: ").data)
        ++ ("invalid-time").data)) := by
  have h1 := (calculateTimespan_contract (("2025-07-15T10:00:00Z").data)
    (("2025-07-15T11:00:00Z").data)
    (("2025-07-15T12:00:00Z").data)).2.1 (by decide) (by decide)
  have h2 := (calculateTimespan_contract (("invalid-time").data) []
    (("2025-07-15T12:00:00Z").data)).2.2.1 (by decide)
  exact ⟨h1.1, h1.2, h2⟩

/-- C1: every category routed to the shared curated AKSControlPlane table
in ResourceSpecific mode gets the category-equality filter for exactly that
category, and the built query contains no category-equality filter for any
other category mapped to the same table. -/
theorem controlPlane_category_filter_noncontamination :
    ∀ c ∈ controlPlaneCategories, ∀ c2 ∈ controlPlaneCategories,
      isSubstr (categoryFilterClause c)
        (BuildSafeKQLQuery c [] 100 testResourceID true).fst = true ∧
      (c2 ≠ c → isSubstr (categoryFilterClause c2)
        (BuildSafeKQLQuery c [] 100 testResourceID true).fst = false) := by
  decide

/-- Witness for C1 at the historically defective pair: the guard query
filters for guard and not for cloud-controller-manager. -/
theorem controlPlane_category_filter_noncontamination_witness :
    isSubstr (categoryFilterClause (("guard").data))
      (BuildSafeKQLQuery (("guard").data) [] 100 testResourceID true).fst =
      true ∧
    isSubstr (categoryFilterClause (("cloud-controller-manager").data))
      (BuildSafeKQLQuery (("guard").data) [] 100 testResourceID true).fst =
      false := by
  have h := controlPlane_category_filter_noncontamination (("guard").data)
    (by decide) (("cloud-controller-manager").data) (by decide)
  exact ⟨h.1, h.2 (by decide)⟩

/-- C4: for both audit-family categories, ResourceSpecific mode targets the
dedicated table (AKSAudit resp. AKSAuditAdmin) with no category-equality
filter, and neither mode emits any severity filter clause for any requested
log level. -/
theorem audit_dedicated_table_and_severity_exemption :
    ∀ c ∈ auditCategories, ∀ ll ∈ validLogLevels,
      List.isPrefixOf
        (if c = ("kube-audit").data then ("AKSAudit").data
         else ("AKSAuditAdmin").data)
        (BuildSafeKQLQuery c ll 100 testResourceID true).fst = true ∧
      isSubstr (("where Category ==").data)
        (BuildSafeKQLQuery c ll 100 testResourceID true).fst = false ∧
      isSubstr (("where log_s startswith").data)
        (BuildSafeKQLQuery c ll 100 testResourceID true).fst = false ∧
      isSubstr (("where Level ==").data)
        (BuildSafeKQLQuery c ll 100 testResourceID true).fst = false ∧
      isSubstr (("where log_s startswith").data)
        (BuildSafeKQLQuery c ll 100 testResourceID false).fst = false ∧
      isSubstr (("where Level ==").data)
        (BuildSafeKQLQuery c ll 100 testResourceID false).fst = false := by
  decide

/-- Witness for C4: kube-audit with error level targets AKSAudit and emits
no severity clause in ResourceSpecific mode. -/
theorem audit_dedicated_table_and_severity_exemption_witness :
    List.isPrefixOf (("AKSAudit").data)
      (BuildSafeKQLQuery (("kube-audit").data) (("error").data) 100
        testResourceID true).fst = true ∧
    isSubstr (("where Level ==").data)
      (BuildSafeKQLQuery (("kube-audit").data) (("error").data) 100
        testResourceID true).fst = false := by
  have h := audit_dedicated_table_and_severity_exemption
    (("kube-audit").data) (by decide) (("error").data) (by decide)
  exact ⟨h.1, h.2.2.2.1⟩

/-- C8: for every control-plane category and non-empty log level, the
generic-mode query renders severity as the fixed message-prefix comparison
(I/W/E) and never a structured Level equality, the resource-specific query
renders it as the fixed Level equality (INFO/WARNING/ERROR) and never a
prefix comparison, and an empty log level produces no severity clause in
either mode. -/
theorem severity_filter_rendering :
    ∀ c ∈ controlPlaneCategories,
      (∀ ll ∈ [("info").data, ("warning").data, ("error").data],
        isSubstr (("where log_s startswith ").data ++
            [quoteCh,
             if ll = ("info").data then 'I'
             else if ll = ("warning").data then 'W' else 'E',
             quoteCh])
          (BuildSafeKQLQuery c ll 100 testResourceID false).fst = true ∧
        isSubstr (("where Level ==").data)
          (BuildSafeKQLQuery c ll 100 testResourceID false).fst = false ∧
        isSubstr (("where Level == ").data ++ [quoteCh] ++
            (if ll = ("info").data then ("INFO").data
             else if ll = ("warning").data then ("WARNING").data
             else ("ERROR").data) ++ [quoteCh])
          (BuildSafeKQLQuery c ll 100 testResourceID true).fst = true ∧
        isSubstr (("where log_s startswith").data)
          (BuildSafeKQLQuery c ll 100 testResourceID true).fst = false) ∧
      (isSubstr (("where log_s startswith").data)
        (BuildSafeKQLQuery c [] 100 testResourceID false).fst = false ∧
       isSubstr (("where Level ==").data)
        (BuildSafeKQLQuery c [] 100 testResourceID false).fst = false ∧
       isSubstr (("where log_s startswith").data)
        (BuildSafeKQLQuery c [] 100 testResourceID true).fst = false ∧
       isSubstr (("where Level ==").data)
        (BuildSafeKQLQuery c [] 100 testResourceID true).fst = false) := by
  decide

/-- Witness for C8: kube-apiserver with info renders the I prefix in
generic mode and the INFO equality in resource-specific mode. -/
theorem severity_filter_rendering_witness :
    isSubstr (("where log_s startswith ").data ++ [quoteCh, 'I', quoteCh])
      (BuildSafeKQLQuery (("kube-apiserver").data) (("info").data) 100
        testResourceID false).fst = true ∧
    isSubstr (("where Level == ").data ++ [quoteCh] ++ ("INFO").data
        ++ [quoteCh])
      (BuildSafeKQLQuery (("kube-apiserver").data) (("info").data) 100
        testResourceID true).fst = true := by
  have h := (severity_filter_rendering (("kube-apiserver").data)
    (by decide)).1 (("info").data) (by decide)
  exact ⟨h.1, h.2.2.1⟩

end Diagnostics
